import Mathlib

/-!
Verification of the face-attendance pipeline in `facedetect/attendance.py`.

The Python source is shallowly embedded: floating-point values are modelled
as real numbers, Python lists as `List`, the per-period `set` of marked
identities as a `List String` (the code only ever tests membership and adds
fresh elements), exceptions and out-of-range indexing as `Option`, and the
external collaborators (DeepFace model, camera, HTTP endpoint) as explicit
function parameters or outcome values.
-/

namespace Attendance

/-- An embedding: a numeric face vector (`np.array` in the source). -/
abbrev Emb := List ℝ

/-- Embedding of `np.dot a b`: the dot product of two vectors. -/
def dotp (a b : Emb) : ℝ :=
  (List.zipWith (fun x y => x * y) a b).sum

noncomputable section

/-- Embedding of `np.linalg.norm a`: the Euclidean norm. -/
def norm2 (a : Emb) : ℝ := Real.sqrt (dotp a a)

/-- Embedding of `cosine_distance` (attendance.py line 33):
`1 - np.dot(a, b) / (np.linalg.norm(a) * np.linalg.norm(b))`. -/
def cosine_distance (a b : Emb) : ℝ :=
  1 - dotp a b / (norm2 a * norm2 b)

/-- The constant `DISTANCE_THRESHOLD` (attendance.py line 18). -/
def DISTANCE_THRESHOLD : ℝ := 0.4

end

/-- Python `min(l)` on a list: `none` on the empty list (Python raises
`ValueError` there), otherwise the least element. -/
def pymin {α : Type} [LinearOrder α] : List α → Option α
  | [] => none
  | x :: xs => some (xs.foldl min x)

/-- Python `l.index(x)`: the index of the first occurrence of `x` in `l`
(`l.length` when `x` is absent; Python raises there, and the source only
indexes with the value returned by `min`, which is present). -/
def pyIndex {α : Type} [DecidableEq α] (x : α) : List α → Nat
  | [] => 0
  | y :: ys => if y = x then 0 else pyIndex x ys + 1

/-- The per-face matching block of `process_frame` (attendance.py lines
122-129): compute the cosine distance from the probe to every known face,
take the minimum, find its first index, and return the student name at that
index when the minimum is below `DISTANCE_THRESHOLD`, else `"Unknown"`.
`none` models the Python error paths (empty gallery, index out of range). -/
noncomputable def matchFace (face_encoding : Emb) (known_faces : List Emb)
    (student_names : List String) : Option String :=
  let distances := known_faces.map (fun known => cosine_distance face_encoding known)
  match pymin distances with
  | none => none
  | some min_distance =>
    let best_match_index := pyIndex min_distance distances
    if min_distance < DISTANCE_THRESHOLD then
      student_names.get? best_match_index
    else
      some "Unknown"

/- ## Helper lemmas about `pymin` and `pyIndex` -/

theorem foldl_min_le_init {α : Type} [LinearOrder α] (xs : List α) (x : α) :
    xs.foldl min x ≤ x := by
  induction xs generalizing x with
  | nil => exact le_refl x
  | cons y ys ih => exact le_trans (ih (min x y)) (min_le_left x y)

theorem foldl_min_le_mem {α : Type} [LinearOrder α] (xs : List α) (x : α)
    (y : α) (hy : y ∈ xs) : xs.foldl min x ≤ y := by
  induction xs generalizing x with
  | nil => cases hy
  | cons z zs ih =>
    rcases List.mem_cons.mp hy with h | h
    · subst h
      exact le_trans (foldl_min_le_init zs (min x y)) (min_le_right x y)
    · exact ih (min x z) h

theorem foldl_min_mem {α : Type} [LinearOrder α] (xs : List α) (x : α) :
    xs.foldl min x ∈ x :: xs := by
  induction xs generalizing x with
  | nil => exact List.mem_singleton.mpr rfl
  | cons y ys ih =>
    have h := ih (min x y)
    rcases List.mem_cons.mp h with h | h
    · rcases min_cases x y with ⟨he, _⟩ | ⟨he, _⟩
      · exact List.mem_cons.mpr (Or.inl (h.trans he))
      · exact List.mem_cons.mpr (Or.inr (List.mem_cons.mpr (Or.inl (h.trans he))))
    · exact List.mem_cons.mpr (Or.inr (List.mem_cons.mpr (Or.inr h)))

theorem pymin_spec {α : Type} [LinearOrder α] (l : List α) (hl : l ≠ []) :
    ∃ m, pymin l = some m ∧ m ∈ l ∧ ∀ y ∈ l, m ≤ y := by
  cases l with
  | nil => exact absurd rfl hl
  | cons x xs =>
    refine ⟨xs.foldl min x, rfl, foldl_min_mem xs x, ?_⟩
    intro y hy
    rcases List.mem_cons.mp hy with h | h
    · exact h ▸ foldl_min_le_init xs x
    · exact foldl_min_le_mem xs x y h

theorem pyIndex_lt_length {α : Type} [DecidableEq α] (x : α) (l : List α)
    (hx : x ∈ l) : pyIndex x l < l.length := by
  induction l with
  | nil => cases hx
  | cons y ys ih =>
    by_cases h : y = x
    · simp [pyIndex, h]
    · rcases List.mem_cons.mp hx with h2 | h2
      · exact absurd h2.symm h
      · simpa [pyIndex, h] using ih h2

theorem pyIndex_get {α : Type} [DecidableEq α] (x : α) (l : List α)
    (hx : x ∈ l) : l.get ⟨pyIndex x l, pyIndex_lt_length x l hx⟩ = x := by
  induction l with
  | nil => cases hx
  | cons y ys ih =>
    by_cases h : y = x
    · simp [pyIndex, h]
    · rcases List.mem_cons.mp hx with h2 | h2
      · exact absurd h2.symm h
      · simpa [pyIndex, h] using ih h2

theorem pyIndex_first {α : Type} [DecidableEq α] (x : α) (l : List α)
    (j : Nat) (hj : j < l.length) (hjx : j < pyIndex x l) :
    l.get ⟨j, hj⟩ ≠ x := by
  induction l generalizing j with
  | nil => cases hj
  | cons y ys ih =>
    by_cases h : y = x
    · simp [pyIndex, h] at hjx
    · cases j with
      | zero => simpa using h
      | succ k =>
        have hk : k < pyIndex x ys := by
          simpa [pyIndex, h] using hjx
        simpa using ih k (by simpa using hj) hk

/- ## Dot product and norm lemmas -/

theorem dotp_nil (b : Emb) : dotp [] b = 0 := rfl

theorem dotp_cons (x : ℝ) (xs : Emb) (y : ℝ) (ys : Emb) :
    dotp (x :: xs) (y :: ys) = x * y + dotp xs ys := by
  simp [dotp]

theorem dotp_comm (a b : Emb) : dotp a b = dotp b a := by
  induction a generalizing b with
  | nil => cases b <;> simp [dotp]
  | cons x xs ih =>
    cases b with
    | nil => simp [dotp]
    | cons y ys => rw [dotp_cons, dotp_cons, mul_comm x y, ih ys]

theorem dotp_self_nonneg (a : Emb) : 0 ≤ dotp a a := by
  induction a with
  | nil => simp [dotp]
  | cons x xs ih =>
    rw [dotp_cons]
    exact add_nonneg (mul_self_nonneg x) ih

/-- C5: the cosine distance of `attendance.py` is symmetric, and every
embedding with nonzero norm is at distance `0` from itself. -/
theorem cosine_distance_symm_and_self :
    (∀ a b : Emb, cosine_distance a b = cosine_distance b a) ∧
    (∀ a : Emb, norm2 a ≠ 0 → cosine_distance a a = 0) := by
  constructor
  · intro a b
    unfold cosine_distance
    rw [dotp_comm, mul_comm]
  · intro a h
    have hd : dotp a a ≠ 0 := by
      intro h0
      exact h (by simp [norm2, h0])
    unfold cosine_distance norm2
    rw [Real.mul_self_sqrt (dotp_self_nonneg a), div_self hd, sub_self]

/-- Witness for C5 at the concrete embedding `[1]`. -/
theorem cosine_distance_self_witness :
    norm2 [(1 : ℝ)] ≠ 0 ∧ cosine_distance [(1 : ℝ)] [(1 : ℝ)] = 0 := by
  have h : norm2 [(1 : ℝ)] ≠ 0 := by
    simp [norm2, dotp]
  exact ⟨h, cosine_distance_symm_and_self.2 [(1 : ℝ)] h⟩

/-- Characterization of `matchFace`: shared between the matcher claims. -/
theorem matchFace_spec_aux (probe : Emb) (known_faces : List Emb)
    (student_names : List String) (hne : known_faces ≠ [])
    (hlen : student_names.length = known_faces.length) :
    ∃ (i : Nat) (hi : i < known_faces.length),
      (∀ j (hj : j < known_faces.length),
        cosine_distance probe (known_faces.get ⟨i, hi⟩) ≤
          cosine_distance probe (known_faces.get ⟨j, hj⟩)) ∧
      (∀ j (hj : j < known_faces.length), j < i →
        cosine_distance probe (known_faces.get ⟨i, hi⟩) <
          cosine_distance probe (known_faces.get ⟨j, hj⟩)) ∧
      matchFace probe known_faces student_names =
        some (if cosine_distance probe (known_faces.get ⟨i, hi⟩) < DISTANCE_THRESHOLD
              then student_names.get ⟨i, hlen ▸ hi⟩
              else "Unknown") := by
  classical
  have hdne : known_faces.map (fun known => cosine_distance probe known) ≠ [] := by
    intro h
    exact hne (List.map_eq_nil.mp h)
  obtain ⟨m, hpm, hmem, hle⟩ :=
    pymin_spec (known_faces.map (fun known => cosine_distance probe known)) hdne
  have hilt := pyIndex_lt_length m _ hmem
  have hi : pyIndex m (known_faces.map (fun known => cosine_distance probe known))
      < known_faces.length := by simpa using hilt
  refine ⟨pyIndex m (known_faces.map (fun known => cosine_distance probe known)), hi, ?_, ?_, ?_⟩
  all_goals
    have hig : cosine_distance probe
        (known_faces.get ⟨pyIndex m (known_faces.map (fun known => cosine_distance probe known)), hi⟩)
        = m := by
      have h1 := pyIndex_get m _ hmem
      rw [List.get_map] at h1
      exact h1
  · intro j hj
    rw [hig]
    exact hle _ (List.mem_map.mpr ⟨known_faces.get ⟨j, hj⟩, List.get_mem _ _ _, rfl⟩)
  · intro j hj hji
    rw [hig]
    have hjm : j < (known_faces.map (fun known => cosine_distance probe known)).length := by
      simpa using hj
    have hget : (known_faces.map (fun known => cosine_distance probe known)).get
        ⟨j, hjm⟩ = cosine_distance probe (known_faces.get ⟨j, hj⟩) := by
      rw [List.get_map]
    have hne2 : (known_faces.map (fun known => cosine_distance probe known)).get
        ⟨j, hjm⟩ ≠ m :=
      pyIndex_first m (known_faces.map (fun known => cosine_distance probe known)) j hjm hji
    rw [← hget]
    exact lt_of_le_of_ne (hle _ (List.get_mem _ _ _)) (Ne.symm hne2)
  · have key : matchFace probe known_faces student_names =
        (if m < DISTANCE_THRESHOLD then
          student_names.get?
            (pyIndex m (known_faces.map (fun known => cosine_distance probe known)))
        else some "Unknown") := by
      simp only [matchFace, hpm]
    rw [key, hig]
    by_cases hth : m < DISTANCE_THRESHOLD
    · rw [if_pos hth, if_pos hth]
      exact List.get?_eq_get (hlen ▸ hi)
    · rw [if_neg hth, if_neg hth]

/-- C1: for every probe and non-empty gallery (with one name per gallery
entry, as the loader provides), `matchFace` computes the cosine distance to
every entry and returns the identity at the first index attaining the
minimum distance when that minimum is strictly below `DISTANCE_THRESHOLD`,
and `"Unknown"` otherwise. -/
theorem matchFace_min_distance (probe : Emb) (known_faces : List Emb)
    (student_names : List String) (hne : known_faces ≠ [])
    (hlen : student_names.length = known_faces.length) :
    ∃ (i : Nat) (hi : i < known_faces.length),
      (∀ j (hj : j < known_faces.length),
        cosine_distance probe (known_faces.get ⟨i, hi⟩) ≤
          cosine_distance probe (known_faces.get ⟨j, hj⟩)) ∧
      (∀ j (hj : j < known_faces.length), j < i →
        cosine_distance probe (known_faces.get ⟨i, hi⟩) <
          cosine_distance probe (known_faces.get ⟨j, hj⟩)) ∧
      matchFace probe known_faces student_names =
        some (if cosine_distance probe (known_faces.get ⟨i, hi⟩) < DISTANCE_THRESHOLD
              then student_names.get ⟨i, hlen ▸ hi⟩
              else "Unknown") :=
  matchFace_spec_aux probe known_faces student_names hne hlen

/-- Witness for C1: probe `[1]` against the one-entry gallery `[[1]]`
named `["alice"]`. -/
theorem matchFace_min_distance_witness :
    ∃ (i : Nat) (hi : i < ([[(1 : ℝ)]] : List Emb).length),
      (∀ j (hj : j < ([[(1 : ℝ)]] : List Emb).length),
        cosine_distance [(1 : ℝ)] (([[(1 : ℝ)]] : List Emb).get ⟨i, hi⟩) ≤
          cosine_distance [(1 : ℝ)] (([[(1 : ℝ)]] : List Emb).get ⟨j, hj⟩)) ∧
      (∀ j (hj : j < ([[(1 : ℝ)]] : List Emb).length), j < i →
        cosine_distance [(1 : ℝ)] (([[(1 : ℝ)]] : List Emb).get ⟨i, hi⟩) <
          cosine_distance [(1 : ℝ)] (([[(1 : ℝ)]] : List Emb).get ⟨j, hj⟩)) ∧
      matchFace [(1 : ℝ)] [[(1 : ℝ)]] ["alice"] =
        some (if cosine_distance [(1 : ℝ)] (([[(1 : ℝ)]] : List Emb).get ⟨i, hi⟩)
                < DISTANCE_THRESHOLD
              then (["alice"] : List String).get ⟨i, by simpa using hi⟩
              else "Unknown") := by
  exact matchFace_min_distance [(1 : ℝ)] [[(1 : ℝ)]] ["alice"] (List.cons_ne_nil _ _) rfl

/- ## The period attendance ledger (`mark_attendance`) -/

/-- One CSV row of the attendance file (attendance.py line 163). -/
structure AttendanceRow where
  name : String
  date : String
  time : String
  status : String
  period : String
deriving DecidableEq

/-- Outcome of the `requests.post` call to the backend (attendance.py
lines 169-181): a 200 response, a non-200 response with its body text, or a
raised exception with its message. -/
inductive RemoteOutcome
  | ok200
  | non200 (body : String)
  | exc (msg : String)
deriving DecidableEq

/-- Severity of a log record emitted through the `logging` module. -/
inductive LogLevel
  | info
  | warning
  | error
deriving DecidableEq

/-- The mutable state touched by `mark_attendance`: the attendance CSV
contents, the per-period `attendance_set` (a Python `set`, modelled as the
list of its elements), and the number of remote call attempts made so far. -/
structure MarkState where
  fileRows : List AttendanceRow
  attendance_set : List String
  remoteCalls : Nat
deriving DecidableEq

/-- The row written by `mark_attendance` (attendance.py line 163). -/
def mkRow (rollNumber date_today time_str : String) (classPeriod : Nat) : AttendanceRow :=
  ⟨rollNumber, date_today, time_str, "Present", "Class " ++ toString classPeriod⟩

/-- Embedding of `mark_attendance` (attendance.py lines 146-181). If the roll number is
already in `attendance_set`, nothing happens. Otherwise one CSV row is
appended, the roll number is added to the set, and one POST to the backend
is attempted; the response (or exception) only affects the log. Returns the
new state together with the log records emitted. -/
def mark_attendance (rollNumber date_today time_str : String) (classPeriod : Nat)
    (remote : RemoteOutcome) (s : MarkState) : MarkState × List (LogLevel × String) :=
  if rollNumber ∈ s.attendance_set then (s, [])
  else
    ({ fileRows := s.fileRows ++ [mkRow rollNumber date_today time_str classPeriod]
       attendance_set := s.attendance_set ++ [rollNumber]
       remoteCalls := s.remoteCalls + 1 },
     [(LogLevel.info,
        "Marked " ++ rollNumber ++ " as Present in Class " ++ toString classPeriod
          ++ " at " ++ time_str),
      match remote with
      | RemoteOutcome.ok200 =>
          (LogLevel.info,
            "Sent attendance for " ++ rollNumber ++ " (Class "
              ++ toString classPeriod ++ ") to backend")
      | RemoteOutcome.non200 body =>
          (LogLevel.warning,
            "Failed to send attendance for " ++ rollNumber ++ " (Class "
              ++ toString classPeriod ++ "): " ++ body)
      | RemoteOutcome.exc msg =>
          (LogLevel.error, "Error sending attendance to backend: " ++ msg)])

/-- A sequence of `mark_attendance` calls for the same roll number and
period, one per `(time, remote outcome)` pair, threading the state. -/
def markCalls (rollNumber date_today : String) (classPeriod : Nat)
    (calls : List (String × RemoteOutcome)) (s : MarkState) : MarkState :=
  calls.foldl
    (fun st c => (mark_attendance rollNumber date_today c.1 classPeriod c.2 st).1) s

/-- The number of CSV rows carrying a given roll number. -/
def rowCount (rollNumber : String) (rows : List AttendanceRow) : Nat :=
  rows.countP (fun r => r.name = rollNumber)

theorem markCalls_mem_noop (rollNumber date_today : String) (classPeriod : Nat)
    (calls : List (String × RemoteOutcome)) (s : MarkState)
    (h : rollNumber ∈ s.attendance_set) :
    markCalls rollNumber date_today classPeriod calls s = s := by
  induction calls generalizing s with
  | nil => rfl
  | cons c rest ih =>
    have h1 : (mark_attendance rollNumber date_today c.1 classPeriod c.2 s).1 = s := by
      simp [mark_attendance, h]
    show markCalls rollNumber date_today classPeriod rest
        (mark_attendance rollNumber date_today c.1 classPeriod c.2 s).1 = s
    rw [h1]
    exact ih s h

/-- C2: `mark_attendance` is idempotent within a period. A call for a roll
number already in `attendance_set` changes nothing and logs nothing; any
non-empty sequence of calls for a roll number not yet in the set yields
exactly one new CSV row for it and exactly one remote call attempt. -/
theorem mark_attendance_idempotent (rollNumber date_today : String) (classPeriod : Nat)
    (s : MarkState) :
    (∀ time_str remote, rollNumber ∈ s.attendance_set →
      mark_attendance rollNumber date_today time_str classPeriod remote s = (s, [])) ∧
    (∀ calls : List (String × RemoteOutcome),
      rollNumber ∉ s.attendance_set → calls ≠ [] →
      rowCount rollNumber (markCalls rollNumber date_today classPeriod calls s).fileRows
          = rowCount rollNumber s.fileRows + 1 ∧
      (markCalls rollNumber date_today classPeriod calls s).remoteCalls
          = s.remoteCalls + 1) := by
  constructor
  · intro time_str remote hmem
    simp [mark_attendance, hmem]
  · intro calls hnm hcne
    cases calls with
    | nil => exact absurd rfl hcne
    | cons c rest =>
      have hs1 : (mark_attendance rollNumber date_today c.1 classPeriod c.2 s).1
          = { fileRows := s.fileRows ++ [mkRow rollNumber date_today c.1 classPeriod]
              attendance_set := s.attendance_set ++ [rollNumber]
              remoteCalls := s.remoteCalls + 1 } := by
        simp [mark_attendance, hnm]
      have hmem1 : rollNumber ∈ s.attendance_set ++ [rollNumber] := by simp
      have hstep : markCalls rollNumber date_today classPeriod (c :: rest) s
          = markCalls rollNumber date_today classPeriod rest
              (mark_attendance rollNumber date_today c.1 classPeriod c.2 s).1 := rfl
      rw [hstep, hs1, markCalls_mem_noop rollNumber date_today classPeriod rest _ hmem1]
      constructor
      · simp [rowCount, mkRow, List.countP_append, List.countP_cons]
      · rfl

/-- Witness for C2: two calls for `"alice"` in period 1 starting from the
empty state leave one row and one remote attempt. -/
theorem mark_attendance_idempotent_witness :
    rowCount "alice" (markCalls "alice" "2026-01-01" 1
        [("09:00:00", RemoteOutcome.ok200), ("09:00:01", RemoteOutcome.ok200)]
        ⟨[], [], 0⟩).fileRows
      = rowCount "alice" (⟨[], [], 0⟩ : MarkState).fileRows + 1 ∧
    (markCalls "alice" "2026-01-01" 1
        [("09:00:00", RemoteOutcome.ok200), ("09:00:01", RemoteOutcome.ok200)]
        ⟨[], [], 0⟩).remoteCalls
      = (⟨[], [], 0⟩ : MarkState).remoteCalls + 1 :=
  (mark_attendance_idempotent "alice" "2026-01-01" 1 ⟨[], [], 0⟩).2
    [("09:00:00", RemoteOutcome.ok200), ("09:00:01", RemoteOutcome.ok200)]
    (by simp) (by simp)

/-- C3: one period's marks do not deduplicate against another period's.
Marking a roll number in period 1 and then again in period 2 — with the
fresh empty `attendance_set` that `main` creates per class period
(attendance.py line 214) while the CSV file persists — appends two rows,
one per period. -/
theorem periods_no_cross_dedup (rollNumber date_today t1 t2 : String)
    (o1 o2 : RemoteOutcome) (rows : List AttendanceRow) (n : Nat) :
    ((mark_attendance rollNumber date_today t2 2 o2
        ⟨((mark_attendance rollNumber date_today t1 1 o1 ⟨rows, [], n⟩).1).fileRows, [],
          ((mark_attendance rollNumber date_today t1 1 o1 ⟨rows, [], n⟩).1).remoteCalls⟩).1).fileRows
      = rows ++ [mkRow rollNumber date_today t1 1] ++ [mkRow rollNumber date_today t2 2] := by
  simp [mark_attendance]

/-- C4: for a first-time mark the CSV append, the set insertion and the
single remote attempt are the same whatever the remote outcome: a failure
rolls nothing back, is not retried, and leaves subsequent marks unchanged. -/
theorem forward_failure_isolated (rollNumber date_today time_str : String)
    (classPeriod : Nat) (remote : RemoteOutcome) (s : MarkState)
    (h : rollNumber ∉ s.attendance_set) :
    ((mark_attendance rollNumber date_today time_str classPeriod remote s).1.fileRows
        = s.fileRows ++ [mkRow rollNumber date_today time_str classPeriod]) ∧
    rollNumber ∈
      (mark_attendance rollNumber date_today time_str classPeriod remote s).1.attendance_set ∧
    ((mark_attendance rollNumber date_today time_str classPeriod remote s).1.remoteCalls
        = s.remoteCalls + 1) ∧
    (∀ r2 d2 t2 p2 o2,
      mark_attendance r2 d2 t2 p2 o2
          (mark_attendance rollNumber date_today time_str classPeriod remote s).1
        = mark_attendance r2 d2 t2 p2 o2
            (mark_attendance rollNumber date_today time_str classPeriod RemoteOutcome.ok200 s).1) := by
  refine ⟨?_, ?_, ?_, ?_⟩ <;> simp [mark_attendance, h]

/-- Witness for C4: a first-time mark of `"bob"` whose remote call raises
still appends the row, inserts into the set, and attempts exactly one call. -/
theorem forward_failure_isolated_witness :
    ((mark_attendance "bob" "2026-01-01" "10:00:00" 2 (RemoteOutcome.exc "down")
        ⟨[], [], 0⟩).1.fileRows
      = (⟨[], [], 0⟩ : MarkState).fileRows ++ [mkRow "bob" "2026-01-01" "10:00:00" 2]) ∧
    "bob" ∈ (mark_attendance "bob" "2026-01-01" "10:00:00" 2 (RemoteOutcome.exc "down")
        ⟨[], [], 0⟩).1.attendance_set ∧
    ((mark_attendance "bob" "2026-01-01" "10:00:00" 2 (RemoteOutcome.exc "down")
        ⟨[], [], 0⟩).1.remoteCalls = (⟨[], [], 0⟩ : MarkState).remoteCalls + 1) ∧
    (∀ r2 d2 t2 p2 o2,
      mark_attendance r2 d2 t2 p2 o2
          (mark_attendance "bob" "2026-01-01" "10:00:00" 2 (RemoteOutcome.exc "down")
            ⟨[], [], 0⟩).1
        = mark_attendance r2 d2 t2 p2 o2
            (mark_attendance "bob" "2026-01-01" "10:00:00" 2 RemoteOutcome.ok200
              ⟨[], [], 0⟩).1) :=
  forward_failure_isolated "bob" "2026-01-01" "10:00:00" 2 (RemoteOutcome.exc "down")
    ⟨[], [], 0⟩ (by simp)

/- ## The capture cycle controller (`main`, attendance.py lines 208-265) -/

/-- How one outer-loop iteration of `main` ends: the camera failed to open
(line 219), the one-minute duration elapsed (line 242), a frame read failed
(line 230), the user pressed 'q' (line 239), a `KeyboardInterrupt` was
caught (line 244), or some other exception escaped the frame loop. -/
inductive CycleOutcome
  | capFail
  | timeout
  | frameFail
  | quitKey
  | interrupted
  | raised
deriving DecidableEq

/-- Capture-resource events: the capture source was opened, `cap.release()`
ran (line 248), `cv2.destroyAllWindows()` ran (line 249). -/
inductive CapEvent
  | openCap
  | releaseCap
  | destroyWin
deriving DecidableEq

/-- How the inner frame loop (lines 228-246) was left: a `break` (duration
elapsed or frame read failed), a `return` (`'q'` pressed, or
`KeyboardInterrupt` caught by the `except` on line 244), or a propagating
exception. -/
inductive ExitKind
  | broke
  | returned
  | raised
deriving DecidableEq

/-- The Active phase of one period: the frame loop runs until it exits, and
then the `finally` block (lines 247-249) releases the capture source and
destroys the windows, whatever the exit kind was. -/
def runActive (out : CycleOutcome) : ExitKind × List CapEvent :=
  (match out with
   | CycleOutcome.quitKey => ExitKind.returned
   | CycleOutcome.interrupted => ExitKind.returned
   | CycleOutcome.raised => ExitKind.raised
   | _ => ExitKind.broke,
   [CapEvent.releaseCap, CapEvent.destroyWin])

/-- Controller state: `running p` is the outer `while class_period <= 6`
loop about to attempt class period `p`; `cancelled` is the `return` path;
`errored` is the outer `except Exception` path; `done` is normal loop exit
after period 6. -/
inductive CtrlState
  | running (class_period : Nat)
  | cancelled
  | errored
  | done
deriving DecidableEq

/-- One iteration of the outer loop, given how its Active phase ends.
Returns the next state, the class periods whose Active phase was entered,
and the capture events that occurred. A failed camera open sleeps and
retries the same period (line 222); a completed Active phase advances
`class_period` (line 260), leaving the loop once it exceeds 6. -/
def cycleStep (out : CycleOutcome) : CtrlState → CtrlState × List Nat × List CapEvent
  | CtrlState.running class_period =>
    if class_period ≤ 6 then
      match out with
      | CycleOutcome.capFail => (CtrlState.running class_period, [], [])
      | o =>
        match (runActive o).1 with
        | ExitKind.returned =>
            (CtrlState.cancelled, [class_period], CapEvent.openCap :: (runActive o).2)
        | ExitKind.raised =>
            (CtrlState.errored, [class_period], CapEvent.openCap :: (runActive o).2)
        | ExitKind.broke =>
            (if class_period + 1 ≤ 6 then CtrlState.running (class_period + 1)
             else CtrlState.done,
             [class_period], CapEvent.openCap :: (runActive o).2)
    else (CtrlState.done, [], [])
  | s => (s, [], [])

/-- Accumulated run of the controller: current state, class periods whose
Active phase was entered, and all capture events so far. -/
structure RunAcc where
  st : CtrlState
  visited : List Nat
  events : List CapEvent
deriving DecidableEq

/-- The controller after `n` outer-loop iterations, starting at class
period 1 (attendance.py line 199), where `env k` is how iteration `k`'s
Active phase ends. -/
def cycleRun (env : Nat → CycleOutcome) : Nat → RunAcc
  | 0 => ⟨CtrlState.running 1, [], []⟩
  | n + 1 =>
    ⟨(cycleStep (env n) (cycleRun env n).st).1,
     (cycleRun env n).visited ++ (cycleStep (env n) (cycleRun env n).st).2.1,
     (cycleRun env n).events ++ (cycleStep (env n) (cycleRun env n).st).2.2⟩

/-- C6: in a run where every cycle ends by its duration elapsing (no camera
failure, no frame-read failure, no exception, no cancellation), the
controller visits class periods 1 through 6 in order, exactly once each,
and is in the terminal `done` state from the sixth iteration on. -/
theorem controller_visits_one_to_six (env : Nat → CycleOutcome)
    (h : ∀ k, env k = CycleOutcome.timeout) :
    ∀ n, 6 ≤ n →
      (cycleRun env n).st = CtrlState.done ∧
      (cycleRun env n).visited = [1, 2, 3, 4, 5, 6] := by
  have henv : env = fun _ => CycleOutcome.timeout := funext h
  subst henv
  intro n hn
  induction n with
  | zero => omega
  | succ k ih =>
    by_cases hk : 6 ≤ k
    · obtain ⟨h1, h2⟩ := ih hk
      refine ⟨?_, ?_⟩
      · simp only [cycleRun]
        rw [h1]
        rfl
      · simp only [cycleRun]
        rw [h1, h2]
        rfl
    · have hk5 : k = 5 := by omega
      subst hk5
      exact ⟨by decide, by decide⟩

/-- Witness for C6: the constant all-timeout environment after exactly six
iterations. -/
theorem controller_visits_one_to_six_witness :
    (cycleRun (fun _ => CycleOutcome.timeout) 6).st = CtrlState.done ∧
    (cycleRun (fun _ => CycleOutcome.timeout) 6).visited = [1, 2, 3, 4, 5, 6] :=
  controller_visits_one_to_six (fun _ => CycleOutcome.timeout) (fun _ => rfl) 6
    (Nat.le_refl 6)

theorem cycleStep_events_balanced (out : CycleOutcome) (s : CtrlState) :
    (cycleStep out s).2.2.count CapEvent.openCap
      = (cycleStep out s).2.2.count CapEvent.releaseCap := by
  cases s with
  | running p =>
    by_cases hp : p ≤ 6
    · cases out <;> simp [cycleStep, runActive, hp]
    · simp [cycleStep, hp]
  | cancelled => rfl
  | errored => rfl
  | done => rfl

/-- C7: however the Active phase of a period ends — duration elapsed,
frame-read failure, `'q'`, `KeyboardInterrupt`, or an exception — the first
thing that happens afterwards is `cap.release()`; consequently, along every
controller run, every successful capture open is matched by a release. -/
theorem capture_released_on_every_exit :
    (∀ out, (runActive out).2.head? = some CapEvent.releaseCap) ∧
    (∀ env n, (cycleRun env n).events.count CapEvent.openCap
        = (cycleRun env n).events.count CapEvent.releaseCap) := by
  constructor
  · intro out
    rfl
  · intro env n
    induction n with
    | zero => rfl
    | succ k ih =>
      simp only [cycleRun, List.count_append]
      rw [ih, cycleStep_events_balanced]

/- ## The gallery loader (`load_known_faces`) and the `main` prologue -/

/-- Python `os.path.splitext(filename)[0]` for the file names the loader keeps
(they end in `.jpg`, `.png` or `.jpeg`): everything before the last dot. -/
def splitextStem (filename : String) : String :=
  if filename.toList.contains '.' then
    ⟨((filename.toList.reverse.dropWhile (fun c => c ≠ '.')).drop 1).reverse⟩
  else filename

/-- Python `s.endswith(suffix)`, on the character lists of the strings. -/
def pyEndsWith (s suffix : String) : Bool :=
  suffix.toList.isSuffixOf s.toList

/-- The body of the loader's `for filename in os.listdir(...)` loop
(attendance.py lines 52-64): image files whose extraction succeeds with a
non-empty result append one embedding and one name (the filename stem);
every other file leaves the accumulator unchanged. `extract` models
`DeepFace.represent`: `none` when it raises, `some []` when it returns a
falsy (empty) result, `some (e :: rest)` when its first result carries
embedding `e`. -/
def loadStep (extract : String → Option (List Emb))
    (acc : List Emb × List String) (filename : String) : List Emb × List String :=
  if pyEndsWith filename ".jpg" || pyEndsWith filename ".png"
      || pyEndsWith filename ".jpeg" then
    match extract filename with
    | some (e :: _) => (acc.1 ++ [e], acc.2 ++ [splitextStem filename])
    | some [] => acc
    | none => acc
  else acc

/-- Embedding of `load_known_faces` (attendance.py lines 35-67). `dataset_path` is
`none` when `os.path.exists` is false (the function then returns two empty
lists, line 50) and otherwise the directory's file listing. -/
def load_known_faces (dataset_path : Option (List String))
    (extract : String → Option (List Emb)) : List Emb × List String :=
  match dataset_path with
  | none => ([], [])
  | some files => files.foldl (loadStep extract) ([], [])

/-- Result of the `main` prologue: whether the attendance file was
initialized, and the controller run (absent when `main` returned early). -/
structure MainResult where
  fileInitialized : Bool
  controller : Option RunAcc
deriving DecidableEq

/-- The structure of `main` (attendance.py lines 183-265): load the
gallery; if no known faces were loaded, log and return (line 192) before
the attendance file is created and before the period loop; otherwise
initialize the file and run the cycle controller for `n` iterations. -/
def mainRun (dataset_path : Option (List String))
    (extract : String → Option (List Emb)) (env : Nat → CycleOutcome) (n : Nat) :
    MainResult :=
  if (load_known_faces dataset_path extract).1.isEmpty then
    ⟨false, none⟩
  else
    ⟨true, some (cycleRun env n)⟩

/-- C8: a missing dataset directory makes the loader return an empty
gallery without failing, and any run whose loaded gallery is empty returns
before creating the attendance file or starting any class period. -/
theorem empty_gallery_aborts :
    (∀ extract, load_known_faces none extract = ([], [])) ∧
    (∀ dataset_path extract env n,
      (load_known_faces dataset_path extract).1 = [] →
      mainRun dataset_path extract env n = ⟨false, none⟩) := by
  constructor
  · intro extract
    rfl
  · intro dataset_path extract env n h
    unfold mainRun
    rw [h]
    rfl

/-- Witness for C8: the missing directory with an extractor that always
raises, after zero controller iterations. -/
theorem empty_gallery_aborts_witness :
    mainRun none (fun _ => none) (fun _ => CycleOutcome.timeout) 0
      = ⟨false, none⟩ :=
  empty_gallery_aborts.2 none (fun _ => none) (fun _ => CycleOutcome.timeout) 0 rfl

theorem loadStep_preserves_len (extract : String → Option (List Emb))
    (acc : List Emb × List String) (filename : String)
    (h : acc.1.length = acc.2.length) :
    (loadStep extract acc filename).1.length
      = (loadStep extract acc filename).2.length := by
  unfold loadStep
  split
  · cases hx : extract filename with
    | none => simpa using h
    | some l =>
      cases l with
      | nil => simpa using h
      | cons e rest => simp [h]
  · exact h

theorem load_known_faces_len (dataset_path : Option (List String))
    (extract : String → Option (List Emb)) :
    (load_known_faces dataset_path extract).1.length
      = (load_known_faces dataset_path extract).2.length := by
  cases dataset_path with
  | none => rfl
  | some files =>
    suffices h : ∀ acc : List Emb × List String, acc.1.length = acc.2.length →
        (files.foldl (loadStep extract) acc).1.length
          = (files.foldl (loadStep extract) acc).2.length by
      exact h ([], []) rfl
    induction files with
    | nil => exact fun acc h => h
    | cons f fs ih =>
      intro acc hacc
      exact ih _ (loadStep_preserves_len extract acc f hacc)

/-- C10: the loader always yields one name per embedding, so whenever the
loaded gallery is non-empty the index the matcher selects is valid for the
names list: `matchFace` returns `some` of the name stored at the position
of a minimum-distance embedding (or `"Unknown"` above the threshold),
never an out-of-range error. -/
theorem loader_one_name_per_embedding (dataset_path : Option (List String))
    (extract : String → Option (List Emb)) :
    ((load_known_faces dataset_path extract).1.length
        = (load_known_faces dataset_path extract).2.length) ∧
    (∀ probe : Emb, (load_known_faces dataset_path extract).1 ≠ [] →
      ∃ (i : Nat) (hi : i < (load_known_faces dataset_path extract).1.length)
        (hi2 : i < (load_known_faces dataset_path extract).2.length),
        (∀ j (hj : j < (load_known_faces dataset_path extract).1.length),
          cosine_distance probe ((load_known_faces dataset_path extract).1.get ⟨i, hi⟩) ≤
            cosine_distance probe ((load_known_faces dataset_path extract).1.get ⟨j, hj⟩)) ∧
        matchFace probe (load_known_faces dataset_path extract).1
            (load_known_faces dataset_path extract).2
          = some (if cosine_distance probe
                      ((load_known_faces dataset_path extract).1.get ⟨i, hi⟩)
                    < DISTANCE_THRESHOLD
                  then (load_known_faces dataset_path extract).2.get ⟨i, hi2⟩
                  else "Unknown")) := by
  have hlen := load_known_faces_len dataset_path extract
  refine ⟨hlen, ?_⟩
  intro probe hne
  obtain ⟨i, hi, hmin, _hfirst, heq⟩ :=
    matchFace_spec_aux probe (load_known_faces dataset_path extract).1
      (load_known_faces dataset_path extract).2 hne hlen.symm
  exact ⟨i, hi, hlen ▸ hi, hmin, heq⟩

/-- Witness for C10: the one-file dataset `["a.jpg"]` whose extraction
yields the embedding `[1]`, probed with `[1]`. -/
theorem loader_one_name_per_embedding_witness :
    ∃ (i : Nat)
      (hi : i < (load_known_faces (some ["a.jpg"])
        (fun _ => some [[(1 : ℝ)]])).1.length)
      (hi2 : i < (load_known_faces (some ["a.jpg"])
        (fun _ => some [[(1 : ℝ)]])).2.length),
      (∀ j (hj : j < (load_known_faces (some ["a.jpg"])
          (fun _ => some [[(1 : ℝ)]])).1.length),
        cosine_distance [(1 : ℝ)]
            ((load_known_faces (some ["a.jpg"])
              (fun _ => some [[(1 : ℝ)]])).1.get ⟨i, hi⟩) ≤
          cosine_distance [(1 : ℝ)]
            ((load_known_faces (some ["a.jpg"])
              (fun _ => some [[(1 : ℝ)]])).1.get ⟨j, hj⟩)) ∧
      matchFace [(1 : ℝ)]
          (load_known_faces (some ["a.jpg"]) (fun _ => some [[(1 : ℝ)]])).1
          (load_known_faces (some ["a.jpg"]) (fun _ => some [[(1 : ℝ)]])).2
        = some (if cosine_distance [(1 : ℝ)]
                    ((load_known_faces (some ["a.jpg"])
                      (fun _ => some [[(1 : ℝ)]])).1.get ⟨i, hi⟩)
                  < DISTANCE_THRESHOLD
                then (load_known_faces (some ["a.jpg"])
                      (fun _ => some [[(1 : ℝ)]])).2.get ⟨i, hi2⟩
                else "Unknown") :=
  (loader_one_name_per_embedding (some ["a.jpg"]) (fun _ => some [[(1 : ℝ)]])).2
    [(1 : ℝ)]
    (by show ([[(1 : ℝ)]] : List Emb) ≠ []; exact List.cons_ne_nil _ _)

/- ## The remote forward call's arguments -/

/-- The arguments of an HTTP POST as issued through `requests.post`. -/
structure PostArgs where
  url : String
  jsonFields : List String
  timeout : Option ℚ
deriving DecidableEq

/-- The `requests.post` call of `mark_attendance` (attendance.py lines
169-175): the backend URL and a five-field JSON payload are passed, and no
`timeout` keyword argument is given, so the library's default — waiting
without bound for the response — applies. -/
def markPostArgs : PostArgs :=
  { url := "http://localhost:5000/api/attendance/mark"
    jsonFields := ["rollNumber", "date", "time", "status", "classPeriod"]
    timeout := none }

/-- C9 (refuted as stated): the remote forward call passes no timeout
bound at all — `requests.post` is invoked without a `timeout` argument. -/
theorem mark_forward_has_no_timeout : markPostArgs.timeout = none := rfl
